import Mathlib

/-!
Verification development for the FerroCP foreign interface.

The definitions below are a shallow embedding of the two headers of the
repository: `ferrocp.h` (the C interface types) and `ferrocp.hpp` (the
inline C++ wrapper).  C strings that may be null are embedded as
`Option String`; unsigned 64-bit counters as `ℕ`; C `int` as `Int`;
C `double` as `ℚ` (only copied, compared and clamped here, never rounded).
Behaviour that lives behind the declared-but-not-included C functions
(`ferrocp_copy`, `ferrocp_init`, ...) is represented by explicit oracle
arguments holding the values those calls would produce; the parts of the
engine core that are absent from the repository snapshot are modelled from
the specification and marked as such in their doc comments.
-/

namespace Ferrocp

/-! ### Error codes (`ferrocp.h`, `ferrocp_error_code_t`) -/

def FERROCP_SUCCESS : Int := 0

def FERROCP_ERROR_GENERIC : Int := 1

def FERROCP_ERROR_FILE_NOT_FOUND : Int := 2

def FERROCP_ERROR_PERMISSION_DENIED : Int := 3

def FERROCP_ERROR_INSUFFICIENT_SPACE : Int := 4

def FERROCP_ERROR_INVALID_PATH : Int := 5

def FERROCP_ERROR_NETWORK : Int := 6

def FERROCP_ERROR_COMPRESSION : Int := 7

def FERROCP_ERROR_VERIFICATION : Int := 8

def FERROCP_ERROR_CANCELLED : Int := 9

def FERROCP_ERROR_INVALID_ARGUMENT : Int := 10

def FERROCP_ERROR_OUT_OF_MEMORY : Int := 11

def FERROCP_ERROR_TIMEOUT : Int := 12

/-- The enumerators of `ferrocp_error_code_t`: success plus the twelve error
kinds, in declaration order. -/
inductive FerrocpErrorCode where
  | success
  | generic
  | fileNotFound
  | permissionDenied
  | insufficientSpace
  | invalidPath
  | network
  | compression
  | verification
  | cancelled
  | invalidArgument
  | outOfMemory
  | timeout
deriving DecidableEq, Fintype

/-- The integer value each enumerator of `ferrocp_error_code_t` is declared
with in `ferrocp.h`. -/
def FerrocpErrorCode.toCode : FerrocpErrorCode → Int
  | .success => 0
  | .generic => 1
  | .fileNotFound => 2
  | .permissionDenied => 3
  | .insufficientSpace => 4
  | .invalidPath => 5
  | .network => 6
  | .compression => 7
  | .verification => 8
  | .cancelled => 9
  | .invalidArgument => 10
  | .outOfMemory => 11
  | .timeout => 12

/-! ### Exceptions (`ferrocp.hpp`) -/

/-- The dynamic class of a thrown `ferrocp::Exception`. -/
inductive ExceptionKind where
  | base
  | fileNotFound
  | permissionDenied
  | insufficientSpace
deriving DecidableEq

/-- A thrown C++ exception value: its dynamic class, the string carried to
`std::runtime_error` (what `what()` returns) and the stored `error_code_`. -/
structure Exception where
  kind : ExceptionKind
  message : String
  error_code : Int
deriving DecidableEq

/-- `Exception(message, error_code)` with the base class. -/
def Exception.mkBase (message : String) (error_code : Int) : Exception :=
  ⟨ExceptionKind.base, message, error_code⟩

/-- `FileNotFoundException(path)` : message is prefixed and the code is
`FERROCP_ERROR_FILE_NOT_FOUND`. -/
def FileNotFoundException (path : String) : Exception :=
  ⟨ExceptionKind.fileNotFound, "File not found: " ++ path, FERROCP_ERROR_FILE_NOT_FOUND⟩

/-- `PermissionDeniedException(message)`. -/
def PermissionDeniedException (message : String) : Exception :=
  ⟨ExceptionKind.permissionDenied, "Permission denied: " ++ message,
    FERROCP_ERROR_PERMISSION_DENIED⟩

/-- `InsufficientSpaceException(message)`. -/
def InsufficientSpaceException (message : String) : Exception :=
  ⟨ExceptionKind.insufficientSpace, "Insufficient space: " ++ message,
    FERROCP_ERROR_INSUFFICIENT_SPACE⟩

/-! ### Enums and data structures (`ferrocp.hpp`) -/

/-- `ferrocp::CopyMode`. -/
inductive CopyMode where
  | Copy
  | Move
  | Sync
deriving DecidableEq

/-- `ferrocp::DeviceType` is a scoped C++ enum with underlying type `int`;
a `static_cast<DeviceType>(n)` may carry any `int`, so the embedding wraps
the representation value. -/
structure DeviceType where
  code : Int
deriving DecidableEq

def DeviceType.Unknown : DeviceType := ⟨0⟩

def DeviceType.Hdd : DeviceType := ⟨1⟩

def DeviceType.Ssd : DeviceType := ⟨2⟩

def DeviceType.Network : DeviceType := ⟨3⟩

def DeviceType.RamDisk : DeviceType := ⟨4⟩

/-- `ferrocp_stats_t` (`ferrocp.h`). -/
structure FerrocpStatsT where
  files_copied : ℕ
  directories_created : ℕ
  bytes_copied : ℕ
  files_skipped : ℕ
  errors : ℕ
  duration_ms : ℕ
  transfer_rate_mbps : ℚ
  efficiency_percent : ℚ
deriving DecidableEq

/-- `ferrocp::CopyStats`; `duration` is kept as its millisecond count. -/
structure CopyStats where
  files_copied : ℕ
  directories_created : ℕ
  bytes_copied : ℕ
  files_skipped : ℕ
  errors : ℕ
  duration_ms : ℕ
  transfer_rate_mbps : ℚ
  efficiency_percent : ℚ
deriving DecidableEq

/-- The value of `CopyStats{}`: every member initializer is zero. -/
def CopyStats.init : CopyStats := ⟨0, 0, 0, 0, 0, 0, 0, 0⟩

/-- The converting constructor `CopyStats(const ferrocp_stats_t&)`: every
field is copied unchanged. -/
def CopyStats.ofC (c : FerrocpStatsT) : CopyStats :=
  ⟨c.files_copied, c.directories_created, c.bytes_copied, c.files_skipped,
    c.errors, c.duration_ms, c.transfer_rate_mbps, c.efficiency_percent⟩

/-- `ferrocp_device_info_t` (`ferrocp.h`); the two `const char*` fields may
be null. -/
structure FerrocpDeviceInfoT where
  device_type : Option String
  filesystem : Option String
  total_space : ℕ
  available_space : ℕ
  read_speed_mbps : ℚ
  write_speed_mbps : ℚ
deriving DecidableEq

/-- `ferrocp::DeviceInfo`. -/
structure DeviceInfo where
  device_type : DeviceType
  filesystem : String
  total_space : ℕ
  available_space : ℕ
  read_speed_mbps : ℚ
  write_speed_mbps : ℚ
deriving DecidableEq

/-- Whitespace characters accepted by the default C locale, as skipped by
`std::stoi`. -/
def isSpaceChar (c : Char) : Bool :=
  c == ' ' || c == '\t' || c == '\n' || c == '\r' || c == '\x0b' || c == '\x0c'

/-- `std::stoi(s)` with base 10: skips leading whitespace, accepts one
optional sign, then consumes decimal digits.  `none` models a thrown
`std::invalid_argument` (no digits) or `std::out_of_range` (outside the
32-bit `int` range). -/
def stoi (s : String) : Option Int :=
  match s.data.dropWhile isSpaceChar with
  | [] => none
  | c :: rest =>
    let signedTail : Bool × List Char :=
      if c == '-' then (true, rest)
      else if c == '+' then (false, rest)
      else (false, c :: rest)
    match signedTail with
    | (neg, body) =>
      let digits := body.takeWhile Char.isDigit
      if digits.isEmpty then none
      else
        let magnitude : ℕ := digits.foldl (fun acc d => 10 * acc + (d.toNat - 48)) 0
        let value : Int := if neg then -(magnitude : Int) else (magnitude : Int)
        if value < -2147483648 ∨ 2147483647 < value then none else some value

/-- The converting constructor `DeviceInfo(const ferrocp_device_info_t&)`:
`device_type` is `static_cast<DeviceType>(c_info.device_type ?
std::stoi(c_info.device_type) : 0)`, `filesystem` falls back to the empty
string on null, the remaining fields are copied.  `none` models `std::stoi`
throwing out of the constructor. -/
def DeviceInfo.ofC (c : FerrocpDeviceInfoT) : Option DeviceInfo :=
  (match c.device_type with
    | none => some (0 : Int)
    | some s => stoi s).map fun code =>
      ⟨⟨code⟩, c.filesystem.getD "", c.total_space, c.available_space,
        c.read_speed_mbps, c.write_speed_mbps⟩

/-- `ferrocp::CopyRequest`. -/
structure CopyRequest where
  source : String
  destination : String
  mode : CopyMode
  compress : Bool
  preserve_metadata : Bool
  verify_copy : Bool
  threads : ℕ
  buffer_size : ℕ
deriving DecidableEq

/-- The constructor `CopyRequest(src, dst)` together with the in-class
member initializers of the remaining fields. -/
def CopyRequest.ofPaths (src dst : String) : CopyRequest :=
  ⟨src, dst, CopyMode.Copy, false, true, false, 0, 0⟩

/-! ### Library RAII wrapper (`ferrocp.hpp`, class `Library`) -/

/-- C calls the wrapper can make into the library. -/
inductive CCall where
  | cleanup
deriving DecidableEq

/-- `ferrocp::Library` owns no data. -/
structure Library

/-- The `Library` constructor, as a function of the value `ferrocp_init()`
returns: it throws `Exception("Failed to initialize FerroCP library")`
(default code `FERROCP_ERROR_GENERIC`) exactly when that value is
non-zero. -/
def mkLibrary (initCode : Int) : Except Exception Library :=
  if initCode ≠ 0 then
    Except.error (Exception.mkBase "Failed to initialize FerroCP library" FERROCP_ERROR_GENERIC)
  else
    Except.ok ⟨⟩

/-- The calls the `Library` destructor performs: unconditionally
`ferrocp_cleanup()`. -/
def Library.destructorCalls : List CCall := [CCall.cleanup]

/-! ### Engine (`ferrocp.hpp`, class `Engine`) -/

/-- `ferrocp::Engine`: holds the `ferrocp_engine_handle_t` (a `uint64_t`). -/
structure Engine where
  handle_ : ℕ
deriving DecidableEq

/-- The `Engine` constructor, as a function of the handle value
`ferrocp_engine_create()` returns (`0` denotes creation failure): it throws
exactly when the handle is `0`. -/
def Engine.construct (h : ℕ) : Except Exception Engine :=
  if h = 0 then
    Except.error (Exception.mkBase "Failed to create FerroCP engine" FERROCP_ERROR_GENERIC)
  else
    Except.ok ⟨h⟩

/-- The values `ferrocp_copy` produces at one call site: its `int` return
value and the `error_message` / `error_details` strings it stores into the
`ferrocp_result_t` out-parameter. -/
structure FfiCopyResult where
  error_code : Int
  error_message : Option String
  error_details : Option String
deriving DecidableEq

instance instDecidableEqExcept {ε α : Type} [DecidableEq ε] [DecidableEq α] :
    DecidableEq (Except ε α) := fun x y =>
  match x, y with
  | .error a, .error b =>
    if h : a = b then isTrue (congrArg Except.error h)
    else isFalse fun hh => h (Except.error.inj hh)
  | .ok a, .ok b =>
    if h : a = b then isTrue (congrArg Except.ok h)
    else isFalse fun hh => h (Except.ok.inj hh)
  | .error _, .ok _ => isFalse fun hh => Except.noConfusion hh
  | .ok _, .error _ => isFalse fun hh => Except.noConfusion hh

/-- What one `Engine::copy` call does: the returned stats or the thrown
exception, and whether `ferrocp_free_result` was called on the result. -/
structure CopyOutcome where
  result : Except Exception CopyStats
  freedResult : Bool
deriving DecidableEq

/-- `Engine::throw_exception_for_error_code(error_code, message)`. -/
def throwExceptionForErrorCode (error_code : Int) (message : String) : Exception :=
  if error_code = FERROCP_ERROR_FILE_NOT_FOUND then FileNotFoundException message
  else if error_code = FERROCP_ERROR_PERMISSION_DENIED then PermissionDeniedException message
  else if error_code = FERROCP_ERROR_INSUFFICIENT_SPACE then InsufficientSpaceException message
  else Exception.mkBase message error_code

/-- `Engine::copy(request)`, parametrised by the oracle `ffi` holding what
the `ferrocp_copy` call returned.  On a non-zero code the message defaults
to `"Unknown error"` when `result.error_message` is null, the result is
freed and the mapped exception is thrown; on zero the result is freed and
the value-initialized `CopyStats{}` is returned (the stats of the C result
are not extracted). -/
def Engine.copy (eng : Engine) (request : CopyRequest) (ffi : FfiCopyResult) : CopyOutcome :=
  if ffi.error_code ≠ 0 then
    ⟨Except.error
        (throwExceptionForErrorCode ffi.error_code (ffi.error_message.getD "Unknown error")),
      true⟩
  else
    ⟨Except.ok CopyStats.init, true⟩

/-- Callback invocations observable during one call: none ever happen in
the wrapper as written. -/
structure CallbackTrace where
  progressEvents : List (ℚ × ℕ × ℕ × String)
  errorEvents : List (Int × String × String)
deriving DecidableEq

/-- `Engine::copy_with_progress(request, progress_callback, error_callback)`:
the body is exactly `return copy(request);`, the callback parameters are
never read, so no callback invocation occurs. -/
def Engine.copyWithProgress {α β : Type} (eng : Engine) (request : CopyRequest)
    (ffi : FfiCopyResult) (progress_callback : α) (error_callback : β) :
    CopyOutcome × CallbackTrace :=
  (Engine.copy eng request ffi, ⟨[], []⟩)

/-! ### Spec-modelled engine-core fragments

The engine core (`ferrocp_copy`'s implementation, the CopyOperation state
machine) is declared in `ferrocp.h` but its implementation is not part of
the repository snapshot; the definitions in this section are modelled from
the specification text and say so in their doc comments. -/

/-- Modelled from the spec: the efficiency metric of a completed operation —
"observed transfer rate as a fraction of a device's theoretical rate",
"always clamped to [0, 100] even when observed transfer rate exceeds the
theoretical device rate". -/
def efficiencyPercentOf (observed theoretical : ℚ) : ℚ :=
  min 100 (max 0 (if theoretical = 0 then 0 else observed / theoretical * 100))

/-- Modelled from the spec: one observable counter-updating event of the
CopyOperation transfer loop (§4.4): a chunk of a planned file is written,
a file finishes, or a destination directory is created. -/
inductive OpEvent where
  | chunk (file : ℕ) (bytes : ℕ)
  | fileDone (file : ℕ)
  | dirCreated
deriving DecidableEq

/-- Modelled from the spec: the cumulative counters of a CopyOperation. -/
structure OpCounters where
  bytes_copied : ℕ
  files_copied : ℕ
  directories_created : ℕ
deriving DecidableEq

/-- Modelled from the spec: "updating byte counters after each chunk" —
each event only increments the corresponding counter. -/
def applyEvent (s : OpCounters) : OpEvent → OpCounters
  | .chunk _ b => ⟨s.bytes_copied + b, s.files_copied, s.directories_created⟩
  | .fileDone _ => ⟨s.bytes_copied, s.files_copied + 1, s.directories_created⟩
  | .dirCreated => ⟨s.bytes_copied, s.files_copied, s.directories_created + 1⟩

/-- All counters start at zero when the operation is submitted. -/
def counters0 : OpCounters := ⟨0, 0, 0⟩

/-- The counters after a trace of transfer-loop events. -/
def runEvents (tr : List OpEvent) : OpCounters := tr.foldl applyEvent counters0

/-- The bytes one event contributes to `bytes_copied`. -/
def eventBytes : OpEvent → ℕ
  | .chunk _ b => b
  | _ => 0

/-- The bytes one event contributes to file `i`. -/
def eventBytesFor (i : ℕ) : OpEvent → ℕ
  | .chunk j b => if j = i then b else 0
  | _ => 0

/-- Total bytes a trace writes into file `i`. -/
def chunkBytesFor (tr : List OpEvent) (i : ℕ) : ℕ := (tr.map (eventBytesFor i)).sum

/-- Total bytes a trace writes. -/
def totalChunkBytes (tr : List OpEvent) : ℕ := (tr.map eventBytes).sum

/-- Whether an event only touches files of an `n`-file plan. -/
def eventFileOk (n : ℕ) : OpEvent → Bool
  | .chunk j _ => j < n
  | _ => true

/-- Modelled from the spec: a transfer-loop trace is within the plan built
from the source-reported file sizes taken at the start of the operation
when every chunk belongs to a planned file and no file receives more bytes
than its source-reported size. -/
def traceWithinPlan (sizes : List ℕ) (tr : List OpEvent) : Prop :=
  (∀ e ∈ tr, eventFileOk sizes.length e = true) ∧
  (∀ i < sizes.length, chunkBytesFor tr i ≤ sizes.getD i 0)

instance (sizes : List ℕ) (tr : List OpEvent) : Decidable (traceWithinPlan sizes tr) := by
  unfold traceWithinPlan
  exact instDecidableAnd

/-- Componentwise order on operation counters. -/
def countersLE (a b : OpCounters) : Prop :=
  a.bytes_copied ≤ b.bytes_copied ∧ a.files_copied ≤ b.files_copied ∧
    a.directories_created ≤ b.directories_created

instance (a b : OpCounters) : Decidable (countersLE a b) := by
  unfold countersLE
  exact instDecidableAnd

lemma countersLE_trans {a b c : OpCounters} (hab : countersLE a b) (hbc : countersLE b c) :
    countersLE a c :=
  ⟨hab.1.trans hbc.1, hab.2.1.trans hbc.2.1, hab.2.2.trans hbc.2.2⟩

lemma countersLE_applyEvent (s : OpCounters) (e : OpEvent) : countersLE s (applyEvent s e) := by
  cases e <;> simp [applyEvent, countersLE]

lemma countersLE_foldl (tr : List OpEvent) (s : OpCounters) :
    countersLE s (tr.foldl applyEvent s) := by
  induction tr generalizing s with
  | nil => exact ⟨le_refl _, le_refl _, le_refl _⟩
  | cons e rest ih =>
    exact countersLE_trans (countersLE_applyEvent s e) (ih (applyEvent s e))

lemma foldl_bytes (tr : List OpEvent) (s : OpCounters) :
    (tr.foldl applyEvent s).bytes_copied = s.bytes_copied + totalChunkBytes tr := by
  induction tr generalizing s with
  | nil => simp [totalChunkBytes]
  | cons e rest ih =>
    have hstep : (applyEvent s e).bytes_copied = s.bytes_copied + eventBytes e := by
      cases e <;> simp [applyEvent, eventBytes]
    calc ((e :: rest).foldl applyEvent s).bytes_copied
        = (rest.foldl applyEvent (applyEvent s e)).bytes_copied := by simp [List.foldl_cons]
      _ = (applyEvent s e).bytes_copied + totalChunkBytes rest := ih (applyEvent s e)
      _ = s.bytes_copied + (eventBytes e + totalChunkBytes rest) := by
          rw [hstep, Nat.add_assoc]
      _ = s.bytes_copied + totalChunkBytes (e :: rest) := by
          simp [totalChunkBytes]

lemma totalChunkBytes_decompose (n : ℕ) (tr : List OpEvent)
    (h : ∀ e ∈ tr, eventFileOk n e = true) :
    totalChunkBytes tr = ∑ i in Finset.range n, chunkBytesFor tr i := by
  induction tr with
  | nil => simp [totalChunkBytes, chunkBytesFor]
  | cons e rest ih =>
    have he : eventFileOk n e = true := h e (List.mem_cons_self e rest)
    have hrest : ∀ x ∈ rest, eventFileOk n x = true :=
      fun x hx => h x (List.mem_cons_of_mem e hx)
    have hcons : ∀ i, chunkBytesFor (e :: rest) i = eventBytesFor i e + chunkBytesFor rest i := by
      intro i
      simp [chunkBytesFor]
    have hone : ∑ i in Finset.range n, eventBytesFor i e = eventBytes e := by
      cases e with
      | chunk j b =>
        have hj : j < n := by simpa [eventFileOk] using he
        simp only [eventBytesFor, eventBytes]
        rw [Finset.sum_ite_eq (Finset.range n) j fun _ => b]
        simp [Finset.mem_range.mpr hj]
      | fileDone j => simp [eventBytesFor, eventBytes]
      | dirCreated => simp [eventBytesFor, eventBytes]
    calc totalChunkBytes (e :: rest)
        = eventBytes e + totalChunkBytes rest := by simp [totalChunkBytes]
      _ = (∑ i in Finset.range n, eventBytesFor i e) +
            ∑ i in Finset.range n, chunkBytesFor rest i := by rw [hone, ih hrest]
      _ = ∑ i in Finset.range n, (eventBytesFor i e + chunkBytesFor rest i) := by
          rw [Finset.sum_add_distrib]
      _ = ∑ i in Finset.range n, chunkBytesFor (e :: rest) i := by
          exact Finset.sum_congr rfl fun i _ => (hcons i).symm

lemma list_sum_eq_range_getD (l : List ℕ) :
    ∑ i in Finset.range l.length, l.getD i 0 = l.sum := by
  induction l with
  | nil => simp
  | cons a t ih =>
    rw [List.length_cons, Finset.sum_range_succ']
    simp only [List.getD_cons_succ, List.getD_cons_zero]
    rw [ih, List.sum_cons, Nat.add_comm]

lemma totalChunkBytes_le_sum (sizes : List ℕ) (tr : List OpEvent)
    (h : traceWithinPlan sizes tr) : totalChunkBytes tr ≤ sizes.sum := by
  rw [totalChunkBytes_decompose sizes.length tr h.1]
  calc ∑ i in Finset.range sizes.length, chunkBytesFor tr i
      ≤ ∑ i in Finset.range sizes.length, sizes.getD i 0 :=
        Finset.sum_le_sum fun i hi => h.2 i (Finset.mem_range.mp hi)
    _ = sizes.sum := list_sum_eq_range_getD sizes

lemma sum_take_le (l : List ℕ) (k : ℕ) : (l.take k).sum ≤ l.sum := by
  conv_rhs => rw [← List.take_append_drop k l]
  rw [List.sum_append]
  exact Nat.le_add_right _ _

lemma traceWithinPlan_take (sizes : List ℕ) (tr : List OpEvent) (k : ℕ)
    (h : traceWithinPlan sizes tr) : traceWithinPlan sizes (tr.take k) := by
  refine ⟨fun e he => h.1 e (List.mem_of_mem_take he), fun i hi => ?_⟩
  have hmono : chunkBytesFor (tr.take k) i ≤ chunkBytesFor tr i := by
    unfold chunkBytesFor
    rw [List.map_take]
    exact sum_take_le _ _
  exact hmono.trans (h.2 i hi)

/-- The message label the exception hierarchy prepends for the three
specialized error codes, and the empty label otherwise. -/
def messageTag (code : Int) : String :=
  if code = FERROCP_ERROR_FILE_NOT_FOUND then "File not found: "
  else if code = FERROCP_ERROR_PERMISSION_DENIED then "Permission denied: "
  else if code = FERROCP_ERROR_INSUFFICIENT_SPACE then "Insufficient space: "
  else ""

/-- The exception class `throw_exception_for_error_code` selects for each
error code. -/
def kindFor (code : Int) : ExceptionKind :=
  if code = FERROCP_ERROR_FILE_NOT_FOUND then ExceptionKind.fileNotFound
  else if code = FERROCP_ERROR_PERMISSION_DENIED then ExceptionKind.permissionDenied
  else if code = FERROCP_ERROR_INSUFFICIENT_SPACE then ExceptionKind.insufficientSpace
  else ExceptionKind.base

/-! ### Claim theorems -/

/-- C5: the error taxonomy is closed — the enumerators of
`ferrocp_error_code_t` carry pairwise distinct codes, every code they
produce is one of the thirteen values 0..12, each of those values is
produced, and the twelve error kinds carry the codes 1..12 in declaration
order (success carrying 0). -/
theorem c5_error_taxonomy_closed :
    (∀ e₁ e₂ : FerrocpErrorCode, e₁.toCode = e₂.toCode → e₁ = e₂) ∧
    (∀ e : FerrocpErrorCode,
      e.toCode ∈ ([0, 1, 2, 3, 4, 5, 6, 7, 8, 9, 10, 11, 12] : List Int)) ∧
    (∀ c ∈ ([0, 1, 2, 3, 4, 5, 6, 7, 8, 9, 10, 11, 12] : List Int),
      ∃ e : FerrocpErrorCode, e.toCode = c) ∧
    FerrocpErrorCode.toCode .success = FERROCP_SUCCESS ∧
    FerrocpErrorCode.toCode .generic = FERROCP_ERROR_GENERIC ∧
    FerrocpErrorCode.toCode .fileNotFound = FERROCP_ERROR_FILE_NOT_FOUND ∧
    FerrocpErrorCode.toCode .permissionDenied = FERROCP_ERROR_PERMISSION_DENIED ∧
    FerrocpErrorCode.toCode .insufficientSpace = FERROCP_ERROR_INSUFFICIENT_SPACE ∧
    FerrocpErrorCode.toCode .invalidPath = FERROCP_ERROR_INVALID_PATH ∧
    FerrocpErrorCode.toCode .network = FERROCP_ERROR_NETWORK ∧
    FerrocpErrorCode.toCode .compression = FERROCP_ERROR_COMPRESSION ∧
    FerrocpErrorCode.toCode .verification = FERROCP_ERROR_VERIFICATION ∧
    FerrocpErrorCode.toCode .cancelled = FERROCP_ERROR_CANCELLED ∧
    FerrocpErrorCode.toCode .invalidArgument = FERROCP_ERROR_INVALID_ARGUMENT ∧
    FerrocpErrorCode.toCode .outOfMemory = FERROCP_ERROR_OUT_OF_MEMORY ∧
    FerrocpErrorCode.toCode .timeout = FERROCP_ERROR_TIMEOUT := by
  decide

/-- C6: an engine handle is a 64-bit identifier, zero denoting creation
failure; the `Engine` constructor throws exactly when the handle returned
by `ferrocp_engine_create` is zero, so every constructed `Engine` holds a
non-zero handle. -/
theorem c6_engine_handle_nonzero (h : ℕ) (hbits : h < 2 ^ 64) :
    (Engine.construct h =
        Except.error (Exception.mkBase "Failed to create FerroCP engine" FERROCP_ERROR_GENERIC)
      ↔ h = 0) ∧
    (h ≠ 0 →
      Engine.construct h = Except.ok ⟨h⟩ ∧
        (⟨h⟩ : Engine).handle_ ≠ 0 ∧ (⟨h⟩ : Engine).handle_ < 2 ^ 64) := by
  constructor
  · constructor
    · intro heq
      by_contra hne
      simp [Engine.construct, hne] at heq
    · intro h0
      simp [Engine.construct, h0]
  · intro hne
    exact ⟨by simp [Engine.construct, hne], hne, hbits⟩

/-- Witness for C6 at the concrete handles 0 and 42. -/
theorem c6_engine_handle_nonzero_witness :
    Engine.construct 0 =
        Except.error (Exception.mkBase "Failed to create FerroCP engine" FERROCP_ERROR_GENERIC) ∧
    Engine.construct 42 = Except.ok ⟨42⟩ :=
  ⟨(c6_engine_handle_nonzero 0 (by norm_num)).1.mpr rfl,
    ((c6_engine_handle_nonzero 42 (by norm_num)).2 (by decide)).1⟩

/-- C7: the `Library` constructor throws the base `Exception` with message
"Failed to initialize FerroCP library" (default code
`FERROCP_ERROR_GENERIC`) exactly when `ferrocp_init()` returns non-zero,
and the `Library` destructor unconditionally calls `ferrocp_cleanup()`. -/
theorem c7_library_raii (initCode : Int) :
    (mkLibrary initCode = Except.ok ⟨⟩ ↔ initCode = 0) ∧
    (initCode ≠ 0 →
      mkLibrary initCode =
        Except.error
          (Exception.mkBase "Failed to initialize FerroCP library" FERROCP_ERROR_GENERIC)) ∧
    Library.destructorCalls = [CCall.cleanup] := by
  refine ⟨⟨fun heq => ?_, fun h0 => by simp [mkLibrary, h0]⟩, fun hne => by
    simp [mkLibrary, hne], rfl⟩
  by_contra hne
  simp [mkLibrary, hne] at heq

/-- Witness for C7 at the concrete init codes 0 and 7. -/
theorem c7_library_raii_witness :
    mkLibrary 0 = Except.ok ⟨⟩ ∧
    mkLibrary 7 =
      Except.error
        (Exception.mkBase "Failed to initialize FerroCP library" FERROCP_ERROR_GENERIC) ∧
    Library.destructorCalls = [CCall.cleanup] :=
  ⟨(c7_library_raii 0).1.mpr rfl, (c7_library_raii 7).2.1 (by decide), (c7_library_raii 7).2.2⟩

/-- C8: for every request, every progress callback and every error
callback, `Engine::copy_with_progress` produces exactly the outcome of
`Engine::copy` on the same request and invokes neither callback. -/
theorem c8_copy_with_progress_equiv {α β : Type} (eng : Engine) (request : CopyRequest)
    (ffi : FfiCopyResult) (progress_callback : α) (error_callback : β) :
    (Engine.copyWithProgress eng request ffi progress_callback error_callback).1 =
        Engine.copy eng request ffi ∧
    (Engine.copyWithProgress eng request ffi progress_callback error_callback).2.progressEvents
        = [] ∧
    (Engine.copyWithProgress eng request ffi progress_callback error_callback).2.errorEvents
        = [] :=
  ⟨rfl, rfl, rfl⟩

/-- C9: a `CopyRequest` built from two non-empty paths has mode `Copy`,
compression off, metadata preservation on, verification off, and auto (0)
thread and buffer-size hints. -/
theorem c9_copy_request_defaults (src dst : String) (hs : src ≠ "") (hd : dst ≠ "") :
    (CopyRequest.ofPaths src dst).source = src ∧
    (CopyRequest.ofPaths src dst).destination = dst ∧
    (CopyRequest.ofPaths src dst).mode = CopyMode.Copy ∧
    (CopyRequest.ofPaths src dst).compress = false ∧
    (CopyRequest.ofPaths src dst).preserve_metadata = true ∧
    (CopyRequest.ofPaths src dst).verify_copy = false ∧
    (CopyRequest.ofPaths src dst).threads = 0 ∧
    (CopyRequest.ofPaths src dst).buffer_size = 0 :=
  ⟨rfl, rfl, rfl, rfl, rfl, rfl, rfl, rfl⟩

/-- Witness for C9 at the concrete paths "a" and "b". -/
theorem c9_copy_request_defaults_witness :
    (CopyRequest.ofPaths "a" "b").mode = CopyMode.Copy ∧
    (CopyRequest.ofPaths "a" "b").compress = false ∧
    (CopyRequest.ofPaths "a" "b").preserve_metadata = true ∧
    (CopyRequest.ofPaths "a" "b").verify_copy = false ∧
    (CopyRequest.ofPaths "a" "b").threads = 0 ∧
    (CopyRequest.ofPaths "a" "b").buffer_size = 0 :=
  ⟨(c9_copy_request_defaults "a" "b" (by decide) (by decide)).2.2.1,
    (c9_copy_request_defaults "a" "b" (by decide) (by decide)).2.2.2.1,
    (c9_copy_request_defaults "a" "b" (by decide) (by decide)).2.2.2.2.1,
    (c9_copy_request_defaults "a" "b" (by decide) (by decide)).2.2.2.2.2.1,
    (c9_copy_request_defaults "a" "b" (by decide) (by decide)).2.2.2.2.2.2.1,
    (c9_copy_request_defaults "a" "b" (by decide) (by decide)).2.2.2.2.2.2.2⟩

/-- C10: converting a `ferrocp_device_info_t` with a null `device_type`
yields `DeviceType::Unknown`; a null `filesystem` yields the empty string;
the space and speed fields are copied unchanged; a non-null `device_type`
is interpreted as a decimal integer via `std::stoi`. -/
theorem c10_device_info_conversion (c : FerrocpDeviceInfoT) :
    (c.device_type = none →
      DeviceInfo.ofC c =
        some ⟨DeviceType.Unknown, c.filesystem.getD "", c.total_space, c.available_space,
          c.read_speed_mbps, c.write_speed_mbps⟩) ∧
    (∀ s, c.device_type = some s →
      DeviceInfo.ofC c =
        (stoi s).map fun v =>
          ⟨⟨v⟩, c.filesystem.getD "", c.total_space, c.available_space,
            c.read_speed_mbps, c.write_speed_mbps⟩) ∧
    (c.filesystem = none → ∀ d, DeviceInfo.ofC c = some d → d.filesystem = "") := by
  refine ⟨fun hnone => ?_, fun s hsome => ?_, fun hfs d hd => ?_⟩
  · simp [DeviceInfo.ofC, hnone, DeviceType.Unknown]
  · simp [DeviceInfo.ofC, hsome]
  · rcases hmatch : (match c.device_type with
      | none => some (0 : Int)
      | some s => stoi s) with _ | code
    · simp [DeviceInfo.ofC, hmatch] at hd
    · simp [DeviceInfo.ofC, hmatch] at hd
      rw [← hd]
      simp [hfs]

/-- Witness for C10 at a null-pointer info record and at one whose
device_type string is "2". -/
theorem c10_device_info_conversion_witness :
    DeviceInfo.ofC ⟨none, none, 5, 3, 0, 0⟩ = some ⟨DeviceType.Unknown, "", 5, 3, 0, 0⟩ ∧
    DeviceInfo.ofC ⟨some "2", some "ntfs", 9, 4, 1, 1⟩ =
      (stoi "2").map (fun v => ⟨⟨v⟩, "ntfs", 9, 4, 1, 1⟩) ∧
    (DeviceInfo.ofC ⟨none, none, 5, 3, 0, 0⟩ = some ⟨DeviceType.Unknown, "", 5, 3, 0, 0⟩ →
      (⟨DeviceType.Unknown, "", 5, 3, 0, 0⟩ : DeviceInfo).filesystem = "") :=
  ⟨(c10_device_info_conversion ⟨none, none, 5, 3, 0, 0⟩).1 rfl,
    (c10_device_info_conversion ⟨some "2", some "ntfs", 9, 4, 1, 1⟩).2.1 "2" rfl,
    fun hd => (c10_device_info_conversion ⟨none, none, 5, 3, 0, 0⟩).2.2 rfl _ hd⟩

/-- C1 (counterexample): the claim says the thrown exception's message is
the result's `error_message`; at error code `FERROCP_ERROR_FILE_NOT_FOUND`
with `error_message = "missing.txt"`, `Engine::copy` throws a
`FileNotFoundException` whose message is the prefixed string
"File not found: missing.txt", which differs from "missing.txt". -/
theorem c1_message_counterexample :
    (Engine.copy ⟨1⟩ (CopyRequest.ofPaths "a" "b") ⟨2, some "missing.txt", none⟩).result =
        Except.error (FileNotFoundException "missing.txt") ∧
    (FileNotFoundException "missing.txt").message ≠ "missing.txt" := by
  constructor
  · rfl
  · decide

/-- C1 (amended): when `ferrocp_copy` returns a non-zero code,
`Engine::copy` frees the result and throws the exception class selected by
`throw_exception_for_error_code` (`FileNotFoundException`,
`PermissionDeniedException`, `InsufficientSpaceException` for codes 2, 3, 4,
the base `Exception` otherwise); the thrown exception's `error_code()`
equals the returned code, and its message is the result's `error_message`
(or "Unknown error" when that is null) prefixed with the specialized
class's label; when the code is zero no exception is thrown. -/
theorem c1_error_mapping (eng : Engine) (request : CopyRequest) (ffi : FfiCopyResult) :
    (Engine.copy eng request ffi).freedResult = true ∧
    (ffi.error_code = 0 →
      (Engine.copy eng request ffi).result = Except.ok CopyStats.init) ∧
    (ffi.error_code ≠ 0 →
      (Engine.copy eng request ffi).result =
        Except.error
          ⟨kindFor ffi.error_code,
            messageTag ffi.error_code ++ ffi.error_message.getD "Unknown error",
            ffi.error_code⟩) := by
  refine ⟨?_, fun h0 => by simp [Engine.copy, h0], fun hne => ?_⟩
  · unfold Engine.copy
    split <;> rfl
  · simp only [Engine.copy, hne, if_pos, ne_eq, not_false_iff]
    unfold throwExceptionForErrorCode kindFor messageTag
    split_ifs with h2 h3 h4
    · simp [FileNotFoundException, h2]
    · simp [PermissionDeniedException, h3]
    · simp [InsufficientSpaceException, h4]
    · simp [Exception.mkBase]

/-- Witness for C1 (amended) at a successful call and at error code 3 with
a null message. -/
theorem c1_error_mapping_witness :
    (Engine.copy ⟨1⟩ (CopyRequest.ofPaths "a" "b") ⟨0, none, none⟩).result =
        Except.ok CopyStats.init ∧
    (Engine.copy ⟨1⟩ (CopyRequest.ofPaths "a" "b") ⟨3, none, none⟩).result =
        Except.error ⟨kindFor 3, messageTag 3 ++ "Unknown error", 3⟩ :=
  ⟨(c1_error_mapping ⟨1⟩ (CopyRequest.ofPaths "a" "b") ⟨0, none, none⟩).2.1 rfl,
    (c1_error_mapping ⟨1⟩ (CopyRequest.ofPaths "a" "b") ⟨3, none, none⟩).2.2 (by decide)⟩

/-- C2: on the spec's scenario request (3-file, 1-subdirectory tree,
`verify_copy = true`) with `ferrocp_copy` reporting success, `Engine::copy`
returns the value-initialized `CopyStats{}` — its `files_copied` is 0 (the
claim expects 3) and `directories_created` is 0 (the claim expects 1); the
stats of the C result are never extracted (`TODO` at `ferrocp.hpp:290`). -/
theorem c2_returns_zeroed_stats :
    (Engine.copy ⟨1⟩ ⟨"tree_src", "empty_dst", CopyMode.Copy, false, true, true, 0, 0⟩
        ⟨0, none, none⟩).result = Except.ok CopyStats.init ∧
    CopyStats.init.files_copied = 0 ∧
    CopyStats.init.directories_created = 0 ∧
    CopyStats.init.errors = 0 :=
  ⟨rfl, rfl, rfl, rfl⟩

/-- C3: any `CopyStats` whose `efficiency_percent` field carries the
spec-modelled clamped efficiency metric has that field inside `[0, 100]`,
also when the observed rate exceeds the theoretical rate, and the
`CopyStats` converting constructor preserves this. -/
theorem c3_efficiency_clamped (c : FerrocpStatsT) (observed theoretical : ℚ)
    (h : c.efficiency_percent = efficiencyPercentOf observed theoretical) :
    0 ≤ (CopyStats.ofC c).efficiency_percent ∧ (CopyStats.ofC c).efficiency_percent ≤ 100 := by
  have hc : (CopyStats.ofC c).efficiency_percent = efficiencyPercentOf observed theoretical := by
    simpa [CopyStats.ofC] using h
  rw [hc]
  unfold efficiencyPercentOf
  exact ⟨le_min (by norm_num) (le_max_left 0 _), min_le_left _ _⟩

/-- Witness for C3 at an observed rate (2) exceeding the theoretical rate
(1). -/
theorem c3_efficiency_clamped_witness :
    0 ≤ (CopyStats.ofC ⟨0, 0, 0, 0, 0, 0, 2, efficiencyPercentOf 2 1⟩).efficiency_percent ∧
    (CopyStats.ofC ⟨0, 0, 0, 0, 0, 0, 2, efficiencyPercentOf 2 1⟩).efficiency_percent ≤ 100 :=
  c3_efficiency_clamped ⟨0, 0, 0, 0, 0, 0, 2, efficiencyPercentOf 2 1⟩ 2 1 rfl

/-- C4: along any spec-modelled transfer-loop trace that stays within the
plan built from the source-reported file sizes, `bytes_copied` at every
prefix (every progress event, and the final stats) never exceeds the sum of
those sizes, and the byte/file/directory counters are monotonically
non-decreasing. -/
theorem c4_counters_invariant (sizes : List ℕ) (tr : List OpEvent)
    (h : traceWithinPlan sizes tr) :
    (∀ k, (runEvents (tr.take k)).bytes_copied ≤ sizes.sum) ∧
    (∀ k m, k ≤ m → countersLE (runEvents (tr.take k)) (runEvents (tr.take m))) := by
  constructor
  · intro k
    have hb : (runEvents (tr.take k)).bytes_copied = totalChunkBytes (tr.take k) := by
      unfold runEvents
      rw [foldl_bytes]
      simp [counters0]
    rw [hb]
    exact totalChunkBytes_le_sum sizes (tr.take k) (traceWithinPlan_take sizes tr k h)
  · intro k m hkm
    have hsplit : tr.take m = tr.take k ++ (tr.take m).drop k := by
      conv_lhs => rw [← List.take_append_drop k (tr.take m)]
      rw [List.take_take, Nat.min_eq_left hkm]
    unfold runEvents
    rw [hsplit, List.foldl_append]
    exact countersLE_foldl _ _

/-- Witness for C4 on the spec's 3-file plan (sizes 0, 1 KiB, 10 MiB) and
a concrete in-plan trace. -/
theorem c4_counters_invariant_witness :
    traceWithinPlan [0, 1024, 10485760]
        [OpEvent.dirCreated, OpEvent.chunk 1 1024, OpEvent.fileDone 1,
          OpEvent.chunk 2 10485760] ∧
    (runEvents ([OpEvent.dirCreated, OpEvent.chunk 1 1024, OpEvent.fileDone 1,
          OpEvent.chunk 2 10485760].take 4)).bytes_copied ≤ [0, 1024, 10485760].sum ∧
    countersLE
      (runEvents ([OpEvent.dirCreated, OpEvent.chunk 1 1024, OpEvent.fileDone 1,
          OpEvent.chunk 2 10485760].take 1))
      (runEvents ([OpEvent.dirCreated, OpEvent.chunk 1 1024, OpEvent.fileDone 1,
          OpEvent.chunk 2 10485760].take 3)) :=
  ⟨by decide,
    (c4_counters_invariant [0, 1024, 10485760] _ (by decide)).1 4,
    (c4_counters_invariant [0, 1024, 10485760] _ (by decide)).2 1 3 (by decide)⟩

end Ferrocp
